import Mathlib

/-!
Verification of the history-respecting type-checking core of `nb_mypy`
(`nb_mypy/__init__.py`).

The development shallowly embeds the current implementation:

* text is modelled as `List Char`; lines handed to the per-line helpers
  (`comment_magic`, `fix_line_nr`, the diagnostic filter) come from splitting
  on `'\n'`, so they contain no newline — theorems about the regex-based
  helpers carry that hypothesis, and the regex models treat `.` as matching
  any character, which agrees with Python on newline-free input;
* the Python `ast` statement/expression nodes that the extension inspects
  are modelled by the inductive types `Target` and `Stmt`; node fields the
  code never looks inside (assignment right-hand sides, annotation
  expressions, function signatures) are kept as opaque `String` payloads;
* `ast.parse` and `astor.to_source` are external collaborators; they are
  passed to the stateful operations as explicit function parameters
  (`Parse`, `ToSource`), exactly where the Python code calls them;
* the external checker `mypy.api.run` is likewise external: only the
  handling of its result triple (stdout, stderr, status) is embedded;
* `logging` calls are modelled by boolean/structured components of the
  return values of the functions that perform them.
-/

/-! ## Character classes -/

/-- Python `str.isspace` / regex `\s` on the ASCII range: space, tab,
newline, vertical tab, form feed, carriage return.  (Python additionally
accepts some non-ASCII unicode whitespace; the inputs handled here are
ASCII diagnostics and source sigils, for which the sets agree.) -/
def pyIsSpace (c : Char) : Bool :=
  c = ' ' || c = '\t' || c = '\n' || c = '\x0b' || c = '\x0c' || c = '\r'

/-- Value of a decimal digit string, as `int()` computes it on `[0-9]+`. -/
def digitsToNat (ds : List Char) : Nat :=
  ds.foldl (fun a c => 10 * a + (c.toNat - ('0').toNat)) 0

/-! ## Fragment Preprocessor (`first_none_whitspace`, `comment_magic`) -/

/-- Embedding of `first_none_whitspace`: index of the first
non-whitespace character (the loop counts leading `isspace` characters and
stops at the first other character). -/
def first_none_whitspace (line : List Char) : Nat :=
  match line with
  | [] => 0
  | c :: cs => if pyIsSpace c then first_none_whitspace cs + 1 else 0

/-- Embedding of `comment_magic`: comment out IPython-only syntax.
`line[:i] + "pass #" + line[i:]` when the first non-whitespace character is
one of `%!?` or the last character is `?`; the `getD` defaults are never
used because the branch has `i < line.length`. -/
def comment_magic (line : List Char) : List Char :=
  let i := first_none_whitspace line
  if i ≥ line.length then line
  else
    let fst := line.getD i ' '
    let lst := line.getLastD ' '
    if fst = '%' ∨ fst = '!' ∨ fst = '?' ∨ lst = '?' then
      line.take i ++ ("pass #").toList ++ line.drop i
    else line

/-- Embedding of the cell filtering in `type_check_cell`:
`functools.reduce(lambda a, b: a + "\n" + b, map(comment_magic, cell.split('\n')))`. -/
def cell_filter_of (cell : List Char) : List Char :=
  List.intercalate ['\n'] ((cell.splitOn '\n').map comment_magic)

/-! ## Diagnostic Remapper: `fix_line_nr`

The regex `(.*)(line\s)([0-9]+)(.*)` with greedy `(.*)` decomposes a line at
the RIGHTMOST occurrence of `line`+whitespace+digits; `re.findall(...)[0]`
returns that decomposition (the match starts at position 0 because the
leading `(.*)` absorbs everything before the occurrence). -/

/-- Match of `line\s[0-9]+` at the head of the list: the literal `line`,
one whitespace character, then a maximal non-empty digit run.  Returns the
whitespace character, the digit run, and the remainder. -/
def lineRefMatchHere (l : List Char) : Option (Char × List Char × List Char) :=
  match l with
  | a :: b :: c :: d :: w :: rest =>
    if a = 'l' ∧ b = 'i' ∧ c = 'n' ∧ d = 'e' ∧ pyIsSpace w = true then
      if rest.takeWhile Char.isDigit = [] then none
      else some (w, rest.takeWhile Char.isDigit, rest.dropWhile Char.isDigit)
    else none
  | _ => none

/-- Decomposition of a line at the rightmost `line\s[0-9]+` occurrence,
as the greedy leading `(.*)` of the regex produces it: `some (b, w, ds, r)`
means `l = b ++ "line" ++ [w] ++ ds ++ r` with the occurrence at `b.length`
and no occurrence further right. -/
def lineRefSplit (l : List Char) : Option (List Char × Char × List Char × List Char) :=
  match l with
  | [] => none
  | c :: cs =>
    match lineRefSplit cs with
    | some (b, w, ds, r) => some (c :: b, w, ds, r)
    | none =>
      match lineRefMatchHere (c :: cs) with
      | some (w, ds, r) => some ([], w, ds, r)
      | none => none

/-- Termination-supporting inversion for `lineRefMatchHere`. -/
theorem lineRefMatchHere_eq_some {l : List Char} {w : Char} {ds r : List Char}
    (h : lineRefMatchHere l = some (w, ds, r)) :
    l = 'l' :: 'i' :: 'n' :: 'e' :: w :: (ds ++ r) ∧
    ds = (ds ++ r).takeWhile Char.isDigit ∧
    r = (ds ++ r).dropWhile Char.isDigit ∧
    ds ≠ [] ∧ pyIsSpace w = true := by
  match l with
  | [] => simp [lineRefMatchHere] at h
  | [a] => simp [lineRefMatchHere] at h
  | [a, b] => simp [lineRefMatchHere] at h
  | [a, b, c] => simp [lineRefMatchHere] at h
  | [a, b, c, d] => simp [lineRefMatchHere] at h
  | a :: b :: c :: d :: w' :: rest =>
    rw [lineRefMatchHere] at h
    split_ifs at h with hc hd
    obtain ⟨ha, hb, hcn, hde, hw⟩ := hc
    subst ha hb hcn hde
    simp only [Option.some.injEq, Prod.mk.injEq] at h
    obtain ⟨hw', hds, hr⟩ := h
    subst hw' hds hr
    refine ⟨?_, ?_, ?_, hd, hw⟩
    · simp [List.takeWhile_append_dropWhile]
    · rw [List.takeWhile_append_dropWhile]
    · rw [List.takeWhile_append_dropWhile]


/-- Structural decomposition produced by `lineRefSplit`. -/
theorem lineRefSplit_decomp {l b : List Char} {w : Char} {ds r : List Char}
    (h : lineRefSplit l = some (b, w, ds, r)) :
    l = b ++ 'l' :: 'i' :: 'n' :: 'e' :: w :: (ds ++ r) ∧ ds ≠ [] := by
  induction l generalizing b with
  | nil => simp [lineRefSplit] at h
  | cons c cs ih =>
    rw [lineRefSplit] at h
    cases hcs : lineRefSplit cs with
    | some res =>
      obtain ⟨b', w', ds', r'⟩ := res
      rw [hcs] at h
      simp only [Option.some.injEq, Prod.mk.injEq] at h
      obtain ⟨hb, hw, hds, hr⟩ := h
      subst hw hds hr
      obtain ⟨hcs', hne⟩ := ih hcs
      subst hb
      exact ⟨by simp [hcs'], hne⟩
    | none =>
      rw [hcs] at h
      cases hmh : lineRefMatchHere (c :: cs) with
      | some res =>
        obtain ⟨w', ds', r'⟩ := res
        rw [hmh] at h
        simp only [Option.some.injEq, Prod.mk.injEq] at h
        obtain ⟨hb, hw, hds, hr⟩ := h
        subst hb hw hds hr
        obtain ⟨hd, _, _, hne, _⟩ := lineRefMatchHere_eq_some hmh
        exact ⟨by simpa using hd, hne⟩
      | none => rw [hmh] at h; exact absurd h (by simp)

/-- Length bounds used for the termination of `fix_line_nr`. -/
theorem lineRefSplit_length {l b : List Char} {w : Char} {ds r : List Char}
    (h : lineRefSplit l = some (b, w, ds, r)) :
    b.length < l.length ∧ r.length < l.length := by
  obtain ⟨hl, hne⟩ := lineRefSplit_decomp h
  have : ds.length ≠ 0 := by simpa using hne
  subst hl
  constructor <;> simp <;> omega

/-- Embedding of `fix_line_nr`: rewrite the rightmost `line N` reference
(`number = str(int(number) - offset)`), then recursively rewrite the prefix
before it and the suffix after it, exactly as the Python recursion on the
`findall` groups does. -/
def fix_line_nr (line : List Char) (offset : Int) : List Char :=
  match h : lineRefSplit line with
  | none => line
  | some (b, w, ds, r) =>
    fix_line_nr b offset
      ++ 'l' :: 'i' :: 'n' :: 'e' :: w ::
        ((toString ((digitsToNat ds : Int) - offset)).toList ++ fix_line_nr r offset)
termination_by line.length
decreasing_by
  · exact (lineRefSplit_length h).1
  · exact (lineRefSplit_length h).2

/-- Specification-side rewriter, written from the words of the claim: scan
the message left to right; each `line\s[0-9]+` occurrence is re-emitted with
its number decreased by the offset, every other character is copied
verbatim. -/
def fix_all_line_refs (line : List Char) (offset : Int) : List Char :=
  match hm : lineRefMatchHere line with
  | some (w, ds, r) =>
    'l' :: 'i' :: 'n' :: 'e' :: w ::
      ((toString ((digitsToNat ds : Int) - offset)).toList ++ fix_all_line_refs r offset)
  | none =>
    match line with
    | [] => []
    | c :: cs => c :: fix_all_line_refs cs offset
termination_by line.length
decreasing_by
  · have := (lineRefMatchHere_eq_some hm).1
    subst this
    simp
    omega
  · simp

/-- Specification-side predicate: the line contains a `line\s[0-9]+`
reference somewhere. -/
def has_line_ref (l : List Char) : Bool :=
  match l with
  | [] => false
  | c :: cs => (lineRefMatchHere (c :: cs)).isSome || has_line_ref cs

/-! ## Diagnostic Remapper: the per-line filter of `type_check_cell`

Each stdout line is matched against `(<[a-z]+>:)(\d+)(.*?)$`; only matching
lines with an absolute line number above the pre-append buffer length are
re-emitted, renumbered. -/

/-- Match of `<[a-z]+>:[0-9]+` at the head of the list, with the rest of
the line as the message group (`(.*?)$` on a newline-free line).  Returns
the pseudo-filename group, the digit run, and the message. -/
def diag_match_here (l : List Char) : Option (List Char × List Char × List Char) :=
  match l with
  | [] => none
  | c :: rest =>
    if c = '<' then
      if rest.takeWhile (fun x => 'a' ≤ x && x ≤ 'z') = [] then none
      else
        match rest.dropWhile (fun x => 'a' ≤ x && x ≤ 'z') with
        | '>' :: ':' :: rest2 =>
          if rest2.takeWhile Char.isDigit = [] then none
          else some ('<' :: rest.takeWhile (fun x => 'a' ≤ x && x ≤ 'z') ++ ['>', ':'],
                     rest2.takeWhile Char.isDigit, rest2.dropWhile Char.isDigit)
        | _ => none
    else none

/-- Leftmost match of the diagnostic marker pattern on a line, as
`re.findall(...)[0]` finds it. -/
def diag_find (l : List Char) : Option (List Char × List Char × List Char) :=
  match l with
  | [] => none
  | c :: cs =>
    match diag_match_here (c :: cs) with
    | some res => some res
    | none => diag_find cs

/-- Embedding of `len(self.mypy_cells.split('\n')) - 1`: the pre-append
offset captured from the freshly serialized buffer. -/
def mypy_cells_length (cells : List Char) : Nat :=
  (cells.splitOn '\n').length - 1

/-- Embedding of the per-line diagnostic processing of `type_check_cell`:
`some` is the re-emitted line (`"".join(["<cell>", line_nr, message])`),
`none` means nothing is logged for this stdout line. -/
def process_diag_line (offset : Nat) (line : List Char) : Option (List Char) :=
  match diag_find line with
  | none => none
  | some (_, line_nr, message) =>
    if digitsToNat line_nr > offset then
      some (("<cell>").toList ++ (toString (digitsToNat line_nr - offset)).toList
            ++ fix_line_nr message (offset : Int))
    else none

/-! ## External-checker result handling (`type_check_cell`, stderr branch) -/

/-- Observable outcome of the stderr/status handling at the end of
`type_check_cell`. -/
structure MypyErrorHandling where
  additional_args : List String
  logged_stderr : Bool
  logged_args_error : Bool
deriving DecidableEq, Repr

/-- Embedding of the stderr branch of `type_check_cell`: when stderr text is
non-empty it is logged; when additionally the status code equals 2 the
descriptive extra-arguments error is logged and `additional_args` is reset
to `[]`. -/
def handle_mypy_errors (additional_args : List String) (stderrText : String)
    (status : Int) : MypyErrorHandling :=
  if stderrText ≠ "" then
    if status = 2 then ⟨[], true, true⟩
    else ⟨additional_args, true, false⟩
  else ⟨additional_args, false, false⟩

/-! ## The `ast` node model

Statement and assignment-target shapes that `NamesLister`, `Names` and
`Replacer` dispatch on.  Constructs the visitors never treat specially
(e.g. `if`/`for` blocks) are outside the model; opaque `String` payloads
stand for sub-expressions the code never inspects. -/

/-- Assignment-target expressions visited by the `Names` gatherer. -/
inductive Target where
  | name (s : String)
  | tup (elts : List Target)
  | attributeAccess (base : Target) (attrname : String)
  | subscript (base : Target)

/-- Top-level statements visited by `NamesLister` and `Replacer`. -/
inductive Stmt where
  | pass
  | expr (text : String)
  | assign (targets : List Target) (value : String)
  | annAssign (target : Target) (ann : String) (value : String)
  | augAssign (target : Target) (value : String)
  | funcdef (name : String) (sig : String) (body : List Stmt)
  | asyncFuncdef (name : String) (sig : String) (body : List Stmt)
  | classdef (name : String) (body : List Stmt)
  | ret (value : String)

/-! ## Symbol Extractor (`Names`, `NamesLister`) -/

mutual

/-- Embedding of the `Names` visitor on one assignment target: `Name` ids
are gathered, `Tuple` elements are visited, `Attribute`/`Subscript` bases
are visited only when `replace` is true. -/
def namesOfTarget (replace : Bool) : Target → Finset String
  | .name s => {s}
  | .tup elts => namesOfTargets replace elts
  | .attributeAccess base _ => if replace then namesOfTarget replace base else ∅
  | .subscript base => if replace then namesOfTarget replace base else ∅

/-- `Names` over a list of targets (the `targets` field of `Assign`). -/
def namesOfTargets (replace : Bool) : List Target → Finset String
  | [] => ∅
  | t :: ts => namesOfTarget replace t ∪ namesOfTargets replace ts

end

/-- The three per-category name sets gathered by `NamesLister`. -/
structure SymbolSets where
  var_names : Finset String
  annotated_names : Finset String
  classfunc_names : Finset String

/-- Embedding of one `NamesLister` visit on a statement: functions, async
functions and classes contribute their name to `classfunc_names` (without
recursing into bodies); assignment and augmented-assignment targets
contribute to `var_names`; annotated-assignment targets contribute to
`annotated_names`. -/
def names_lister_stmt (replace : Bool) : Stmt → SymbolSets
  | .funcdef n _ _ => ⟨∅, ∅, {n}⟩
  | .asyncFuncdef n _ _ => ⟨∅, ∅, {n}⟩
  | .classdef n _ => ⟨∅, ∅, {n}⟩
  | .assign ts _ => ⟨namesOfTargets replace ts, ∅, ∅⟩
  | .annAssign t _ _ => ⟨∅, namesOfTarget replace t, ∅⟩
  | .augAssign t _ => ⟨namesOfTarget replace t, ∅, ∅⟩
  | .pass => ⟨∅, ∅, ∅⟩
  | .expr _ => ⟨∅, ∅, ∅⟩
  | .ret _ => ⟨∅, ∅, ∅⟩

/-- Embedding of `NamesLister.visit` on a whole parsed module (the visitor
dispatches once per top-level statement). -/
def names_lister (replace : Bool) (m : List Stmt) : SymbolSets :=
  m.foldr
    (fun s acc =>
      ⟨(names_lister_stmt replace s).var_names ∪ acc.var_names,
       (names_lister_stmt replace s).annotated_names ∪ acc.annotated_names,
       (names_lister_stmt replace s).classfunc_names ∪ acc.classfunc_names⟩)
    ⟨∅, ∅, ∅⟩

/-! ## History Rewriter (`Replacer`) -/

/-- Embedding of the per-statement `Replacer` transforms: a function or
class whose name is in `known_classfunc` collapses to `Pass`; a surviving
function keeps only its signature (`node.body = [ast.Pass()]`); an
assignment whose replace-mode names meet `known_vars` (for `AnnAssign`:
`known_annotated`) collapses to `Pass`. -/
def replacer_stmt (known_vars known_annotated known_classfunc : Finset String) :
    Stmt → Stmt
  | .funcdef n sig _ =>
    if n ∈ known_classfunc then .pass else .funcdef n sig [.pass]
  | .asyncFuncdef n sig _ =>
    if n ∈ known_classfunc then .pass else .asyncFuncdef n sig [.pass]
  | .classdef n body =>
    if n ∈ known_classfunc then .pass else .classdef n body
  | .assign ts v =>
    if (names_lister_stmt true (.assign ts v)).var_names ∩ known_vars ≠ ∅ then .pass
    else .assign ts v
  | .augAssign t v =>
    if (names_lister_stmt true (.augAssign t v)).var_names ∩ known_vars ≠ ∅ then .pass
    else .augAssign t v
  | .annAssign t a v =>
    if (names_lister_stmt true (.annAssign t a v)).annotated_names ∩ known_annotated ≠ ∅ then .pass
    else .annAssign t a v
  | .pass => .pass
  | .expr t => .expr t
  | .ret v => .ret v

/-- Embedding of `Replacer.visit` on a module: `visit_Module` first drops
top-level `Pass` and `Expr` statements, then `generic_visit` transforms
each remaining statement. -/
def replacer_module (known_vars known_annotated known_classfunc : Finset String)
    (m : List Stmt) : List Stmt :=
  (m.filter (fun s => match s with | .pass => false | .expr _ => false | _ => true)).map
    (replacer_stmt known_vars known_annotated known_classfunc)

/-! ## Session state and the History Consolidation Engine -/

/-- External `ast.parse` oracle: `none` models a `SyntaxError`. -/
abbrev Parse := List Char → Option (List Stmt)

/-- External `astor.to_source` oracle. -/
abbrev ToSource := List Stmt → List Char

/-- The mutable fields of `MypyIPython` that the consolidation engine
reads and writes. -/
structure MypyState where
  mypy_cells : List Char
  mypy_var_names : Finset String
  mypy_annotated_names : Finset String
  mypy_classfunc_names : Finset String

/-- Purge set for the Variables registry:
`(new_var | new_annotated | new_classfunc) & self.mypy_var_names`. -/
def remove_var_set (new_var new_annotated new_classfunc old_var : Finset String) :
    Finset String :=
  (new_var ∪ new_annotated ∪ new_classfunc) ∩ old_var

/-- Purge set for the AnnotatedVariables registry:
`(new_annotated | new_classfunc) & self.mypy_annotated_names`. -/
def remove_annotated_set (new_annotated new_classfunc old_annotated : Finset String) :
    Finset String :=
  (new_annotated ∪ new_classfunc) ∩ old_annotated

/-- Purge set for the Callables registry:
`(new_var | new_annotated | new_classfunc) & self.mypy_classfunc_names`. -/
def remove_classfunc_set (new_var new_annotated new_classfunc old_classfunc : Finset String) :
    Finset String :=
  (new_var ∪ new_annotated ∪ new_classfunc) ∩ old_classfunc

/-- Registry update at the end of `clean_history`: `difference_update` with
the purge set, then `update` with the new names, for each category. -/
def update_registries (s : MypyState)
    (remove_var remove_annotated remove_classfunc : Finset String)
    (new_var new_annotated new_classfunc : Finset String) : MypyState :=
  { s with
    mypy_var_names := (s.mypy_var_names \ remove_var) ∪ new_var,
    mypy_annotated_names := (s.mypy_annotated_names \ remove_annotated) ∪ new_annotated,
    mypy_classfunc_names := (s.mypy_classfunc_names \ remove_classfunc) ∪ new_classfunc }

/-- Embedding of `MypyIPython.clean_history`.  The returned `Bool` records
whether the syntax-error path was taken (`logger.error`, early `return`
leaving every field untouched).  When some purge set is non-empty, the
buffer is re-parsed, rewritten by `Replacer` and re-serialized before the
registries are updated. -/
def clean_history (parse : Parse) (to_source : ToSource) (s : MypyState)
    (new_var new_annotated new_classfunc : Finset String) : MypyState × Bool :=
  let remove_var := remove_var_set new_var new_annotated new_classfunc s.mypy_var_names
  let remove_annotated := remove_annotated_set new_annotated new_classfunc s.mypy_annotated_names
  let remove_classfunc := remove_classfunc_set new_var new_annotated new_classfunc s.mypy_classfunc_names
  if remove_var.Nonempty ∨ remove_annotated.Nonempty ∨ remove_classfunc.Nonempty then
    match parse s.mypy_cells with
    | none => (s, true)
    | some mypy_cells_ast =>
      (update_registries
        { s with mypy_cells :=
            to_source (replacer_module remove_var remove_annotated remove_classfunc mypy_cells_ast) }
        remove_var remove_annotated remove_classfunc new_var new_annotated new_classfunc,
       false)
  else
    (update_registries s remove_var remove_annotated remove_classfunc
       new_var new_annotated new_classfunc,
     false)

/-- Embedding of the state-mutating part of `MypyIPython.type_check_cell`:
cell-magic guard, `comment_magic` filtering, parse of the filtered cell
(`none` aborts the check leaving the state untouched), `NamesLister`
extraction, `clean_history`, and the append of the filtered cell text plus
a newline to the buffer.  The checker invocation itself is external; its
stdout lines are processed by `process_diag_line` and its stderr/status by
`handle_mypy_errors`.  The returned `Bool` is the `clean_history` error
flag. -/
def type_check_cell (parse : Parse) (to_source : ToSource) (s : MypyState)
    (cell : List Char) : MypyState × Bool :=
  if ['%', '%'].isPrefixOf cell then (s, false)
  else
    let cell_filter := cell_filter_of cell
    match parse cell_filter with
    | none => (s, false)
    | some cell_p =>
      let get_cell_names := names_lister false cell_p
      let res := clean_history parse to_source s get_cell_names.var_names
          get_cell_names.annotated_names get_cell_names.classfunc_names
      ({ res.1 with mypy_cells := res.1.mypy_cells ++ cell_filter ++ ['\n'] }, res.2)

/-! ## Live names of the buffer -/

/-- Names a parsed buffer currently declares in the Variables category:
the plain-assignment and augmented-assignment target names of its top-level
statements (ordinary, non-replace extraction). -/
def live_var_names (m : List Stmt) : Finset String :=
  (names_lister false m).var_names

/-- Names a parsed buffer currently declares in the AnnotatedVariables
category. -/
def live_annotated_names (m : List Stmt) : Finset String :=
  (names_lister false m).annotated_names

/-- Names a parsed buffer currently declares in the Callables category. -/
def live_classfunc_names (m : List Stmt) : Finset String :=
  (names_lister false m).classfunc_names

/-- Top-level definitions (function, async function or class) with the
given name, in buffer order. -/
def defsNamed (n : String) (m : List Stmt) : List Stmt :=
  m.filter (fun s =>
    match s with
    | .funcdef nm _ _ => nm = n
    | .asyncFuncdef nm _ _ => nm = n
    | .classdef nm _ => nm = n
    | _ => false)

/-! ## Concrete scenario data

Fragment texts, their `ast.parse` results, and table-based instantiations
of the external `parse`/`to_source` oracles, used to evaluate the abstract
theorems on the concrete scenarios named in the specification. -/

/-- Apostrophe character (ASCII 39). -/
def squote : Char := Char.ofNat 39

/-- Scenario fragment 1: `a = 1`. -/
def c3_frag1 : List Char := ("a = 1").toList

/-- Scenario fragment 2: `a = 'x'`. -/
def c3_frag2 : List Char := ("a = ").toList ++ [squote, 'x', squote]

/-- Scenario fragment 3: `def f(): pass`. -/
def c3_frag3 : List Char := ("def f(): pass").toList

/-- Scenario fragment 4: `def f(x: int) -> int: return x`. -/
def c3_frag4 : List Char := ("def f(x: int) -> int: return x").toList

/-- Opaque right-hand side text of fragment 2. -/
def c3_val2 : String := String.mk [squote, 'x', squote]

/-- Opaque signature of the fragment-3 definition of `f`. -/
def c3_sig3 : String := "()"

/-- Opaque signature of the fragment-4 definition of `f`. -/
def c3_sig4 : String := "(x: int) -> int"

/-- Parse result of fragment 1. -/
def c3_ast1 : List Stmt := [.assign [.name ("a")] ("1")]

/-- Parse result of fragment 2. -/
def c3_ast2 : List Stmt := [.assign [.name ("a")] c3_val2]

/-- Parse result of fragment 3. -/
def c3_ast3 : List Stmt := [.funcdef ("f") c3_sig3 [.pass]]

/-- Parse result of fragment 4. -/
def c3_ast4 : List Stmt := [.funcdef ("f") c3_sig4 [.ret ("x")]]

/-- The parsed final buffer of the scenario. -/
def c3_final_ast : List Stmt :=
  [.assign [.name ("a")] c3_val2, .pass, .funcdef ("f") c3_sig4 [.ret ("x")]]

/-- Session state after processing the four scenario fragments from an
empty session. -/
def c3_run (parse : Parse) (to_source : ToSource) : MypyState :=
  (type_check_cell parse to_source
    ((type_check_cell parse to_source
      ((type_check_cell parse to_source
        ((type_check_cell parse to_source ⟨[], ∅, ∅, ∅⟩ c3_frag1).1)
        c3_frag2).1)
      c3_frag3).1)
    c3_frag4).1

/-- Table-based `to_source` oracle for the scenario: serializes the two
modules that the rewrite actually produces. -/
def c3_to_source : ToSource := fun m =>
  match m with
  | [Stmt.pass] => ("pass\n").toList
  | [Stmt.assign [Target.name _] _, Stmt.pass] =>
    ("a = ").toList ++ [squote, 'x', squote] ++ ("\npass\n").toList
  | _ => []

/-- Table-based `ast.parse` oracle for the scenario: covers the fragments
and every buffer text that arises during the run. -/
def c3_parse : Parse := fun l =>
  if l = c3_frag1 then some c3_ast1
  else if l = c3_frag2 then some c3_ast2
  else if l = c3_frag3 then some c3_ast3
  else if l = c3_frag4 then some c3_ast4
  else if l = c3_frag1 ++ ['\n'] then some c3_ast1
  else if l = c3_to_source [Stmt.pass] ++ c3_frag2 ++ ['\n'] ++ c3_frag3 ++ ['\n'] then
    some [Stmt.pass, Stmt.assign [Target.name ("a")] c3_val2, Stmt.funcdef ("f") c3_sig3 [Stmt.pass]]
  else if l = c3_to_source [Stmt.assign [Target.name ("a")] c3_val2, Stmt.pass]
      ++ c3_frag4 ++ ['\n'] then some c3_final_ast
  else none

/-- Multi-target fragment `a, b = 1, 2` for the registry/buffer divergence
run. -/
def c7_frag1 : List Char := ("a, b = 1, 2").toList

/-- Parse result of `a, b = 1, 2`. -/
def c7_ast1 : List Stmt := [.assign [.tup [.name ("a"), .name ("b")]] ("1, 2")]

/-- Fragment `a = 3`. -/
def c7_frag2 : List Char := ("a = 3").toList

/-- Parse result of `a = 3`. -/
def c7_ast2 : List Stmt := [.assign [.name ("a")] ("3")]

/-- Table-based `to_source` oracle for the divergence run. -/
def c7_to_source : ToSource := fun m =>
  match m with
  | [Stmt.pass] => ("pass\n").toList
  | _ => []

/-- Table-based `ast.parse` oracle for the divergence run. -/
def c7_parse : Parse := fun l =>
  if l = c7_frag1 then some c7_ast1
  else if l = c7_frag2 then some c7_ast2
  else if l = c7_frag1 ++ ['\n'] then some c7_ast1
  else if l = ("pass\n").toList ++ c7_frag2 ++ ['\n'] then
    some [Stmt.pass, Stmt.assign [Target.name ("a")] ("3")]
  else none

/-- Session state after processing `a, b = 1, 2` then `a = 3` from an empty
session, under the table oracles. -/
def c7_run : MypyState :=
  (type_check_cell c7_parse c7_to_source
    ((type_check_cell c7_parse c7_to_source ⟨[], ∅, ∅, ∅⟩ c7_frag1).1)
    c7_frag2).1

/-- Table-based `ast.parse` oracle for the invariant-preservation witness
(state `x = 1` with registry `{x}`, fragment `x = 2`). -/
def c7w_parse : Parse := fun l =>
  if l = ("x = 1\n").toList then some [Stmt.assign [Target.name ("x")] ("1")]
  else if l = ("x = 2").toList then some [Stmt.assign [Target.name ("x")] ("2")]
  else if l = ("pass\n").toList ++ ("x = 2").toList ++ ['\n'] then
    some [Stmt.pass, Stmt.assign [Target.name ("x")] ("2")]
  else if l = ("x = 1\n").toList ++ ("x = 2").toList ++ ['\n'] then
    some [Stmt.assign [Target.name ("x")] ("1"), Stmt.assign [Target.name ("x")] ("2")]
  else none

/-- Table-based `to_source` oracle for the invariant-preservation witness. -/
def c7w_to_source : ToSource := fun m =>
  match m with
  | [Stmt.pass] => ("pass\n").toList
  | _ => []

/-! ## Helper lemmas -/

theorem first_none_whitspace_take (line : List Char) :
    line.take (first_none_whitspace line) = line.takeWhile pyIsSpace := by
  induction line with
  | nil => rfl
  | cons c cs ih =>
    by_cases h : pyIsSpace c = true
    · simp [first_none_whitspace, h, List.takeWhile_cons_of_pos, ih]
    · simp [first_none_whitspace, h, List.takeWhile_cons_of_neg]

theorem first_none_whitspace_drop (line : List Char) :
    line.drop (first_none_whitspace line) = line.dropWhile pyIsSpace := by
  induction line with
  | nil => rfl
  | cons c cs ih =>
    by_cases h : pyIsSpace c = true
    · simp [first_none_whitspace, h, List.dropWhile_cons_of_pos, ih]
    · simp [first_none_whitspace, h, List.dropWhile_cons_of_neg]

theorem first_none_whitspace_getD (line : List Char) :
    line.getD (first_none_whitspace line) ' ' = (line.dropWhile pyIsSpace).headD ' ' := by
  induction line with
  | nil => rfl
  | cons c cs ih =>
    by_cases h : pyIsSpace c = true
    · simpa [first_none_whitspace, h, List.dropWhile_cons_of_pos] using ih
    · simp [first_none_whitspace, h, List.dropWhile_cons_of_neg]

theorem first_none_whitspace_ge_iff (line : List Char) :
    first_none_whitspace line ≥ line.length ↔ line.all pyIsSpace = true := by
  induction line with
  | nil => simp [first_none_whitspace]
  | cons c cs ih =>
    by_cases h : pyIsSpace c = true
    · simpa [first_none_whitspace, h, Nat.succ_le_succ_iff] using ih
    · simp [first_none_whitspace, h]

/-- Normal form of `comment_magic` in terms of `takeWhile`/`dropWhile`. -/
theorem comment_magic_eq (line : List Char) :
    comment_magic line =
      if first_none_whitspace line ≥ line.length then line
      else if (line.dropWhile pyIsSpace).headD ' ' = '%' ∨
              (line.dropWhile pyIsSpace).headD ' ' = '!' ∨
              (line.dropWhile pyIsSpace).headD ' ' = '?' ∨
              line.getLastD ' ' = '?' then
        line.takeWhile pyIsSpace ++ ("pass #").toList ++ line.dropWhile pyIsSpace
      else line := by
  unfold comment_magic
  simp only [first_none_whitspace_take, first_none_whitspace_drop, first_none_whitspace_getD]

/-- Unfolding lemma: a line without a `line\s[0-9]+` occurrence is returned
unchanged by `fix_line_nr`. -/
theorem fix_line_nr_eq_self {l : List Char} (offset : Int)
    (h : lineRefSplit l = none) : fix_line_nr l offset = l := by
  rw [fix_line_nr.eq_def, h]

/-- Unfolding lemma for the rewriting case of `fix_line_nr`. -/
theorem fix_line_nr_eq_rewrite {l b : List Char} {w : Char} {ds r : List Char} (offset : Int)
    (h : lineRefSplit l = some (b, w, ds, r)) :
    fix_line_nr l offset =
      fix_line_nr b offset
        ++ 'l' :: 'i' :: 'n' :: 'e' :: w ::
          ((toString ((digitsToNat ds : Int) - offset)).toList ++ fix_line_nr r offset) := by
  rw [fix_line_nr.eq_def, h]

/-! ## Claim theorems -/

/-- Claim C1: the three purge sets are computed from the registry exactly
as stated — a registry name is purged from Variables when the fragment
introduces it in any of the three categories, from AnnotatedVariables only
when it is introduced as an annotated variable or a callable/type (a plain
reassignment does not purge it), and from Callables when it is introduced
in any of the three categories. -/
theorem C1_purge_set_rule
    (new_var new_annotated new_classfunc old_var old_annotated old_classfunc : Finset String)
    (n : String) :
    (n ∈ remove_var_set new_var new_annotated new_classfunc old_var ↔
      n ∈ old_var ∧ (n ∈ new_var ∨ n ∈ new_annotated ∨ n ∈ new_classfunc)) ∧
    (n ∈ remove_annotated_set new_annotated new_classfunc old_annotated ↔
      n ∈ old_annotated ∧ (n ∈ new_annotated ∨ n ∈ new_classfunc)) ∧
    (n ∈ remove_classfunc_set new_var new_annotated new_classfunc old_classfunc ↔
      n ∈ old_classfunc ∧ (n ∈ new_var ∨ n ∈ new_annotated ∨ n ∈ new_classfunc)) := by
  simp only [remove_var_set, remove_annotated_set, remove_classfunc_set,
    Finset.mem_inter, Finset.mem_union, or_assoc]
  tauto

/-- Claim C4: when the rewrite step does not fail, each registry category
after `clean_history` equals its prior contents minus the category purge
set, unioned with the newly introduced names of that category
(`difference_update` before `update`), so a name re-introduced in any
category is registered afterwards. -/
theorem C4_registry_update (parse : Parse) (to_source : ToSource) (s : MypyState)
    (new_var new_annotated new_classfunc : Finset String)
    (hok : ((remove_var_set new_var new_annotated new_classfunc s.mypy_var_names).Nonempty ∨
        (remove_annotated_set new_annotated new_classfunc s.mypy_annotated_names).Nonempty ∨
        (remove_classfunc_set new_var new_annotated new_classfunc s.mypy_classfunc_names).Nonempty) →
      (parse s.mypy_cells).isSome = true) :
    (clean_history parse to_source s new_var new_annotated new_classfunc).1.mypy_var_names
      = (s.mypy_var_names \ remove_var_set new_var new_annotated new_classfunc s.mypy_var_names)
        ∪ new_var ∧
    (clean_history parse to_source s new_var new_annotated new_classfunc).1.mypy_annotated_names
      = (s.mypy_annotated_names \
          remove_annotated_set new_annotated new_classfunc s.mypy_annotated_names)
        ∪ new_annotated ∧
    (clean_history parse to_source s new_var new_annotated new_classfunc).1.mypy_classfunc_names
      = (s.mypy_classfunc_names \
          remove_classfunc_set new_var new_annotated new_classfunc s.mypy_classfunc_names)
        ∪ new_classfunc ∧
    (∀ n, (n ∈ new_var →
        n ∈ (clean_history parse to_source s new_var new_annotated new_classfunc).1.mypy_var_names) ∧
      (n ∈ new_annotated →
        n ∈ (clean_history parse to_source s new_var new_annotated new_classfunc).1.mypy_annotated_names) ∧
      (n ∈ new_classfunc →
        n ∈ (clean_history parse to_source s new_var new_annotated new_classfunc).1.mypy_classfunc_names)) := by
  by_cases hcond : (remove_var_set new_var new_annotated new_classfunc s.mypy_var_names).Nonempty ∨
      (remove_annotated_set new_annotated new_classfunc s.mypy_annotated_names).Nonempty ∨
      (remove_classfunc_set new_var new_annotated new_classfunc s.mypy_classfunc_names).Nonempty
  · obtain ⟨m, hm⟩ := Option.isSome_iff_exists.mp (hok hcond)
    simp only [clean_history, if_pos hcond, hm, update_registries]
    exact ⟨trivial, trivial, trivial, fun n =>
      ⟨fun h => Finset.mem_union_right _ h, fun h => Finset.mem_union_right _ h,
       fun h => Finset.mem_union_right _ h⟩⟩
  · simp only [clean_history, if_neg hcond, update_registries]
    exact ⟨trivial, trivial, trivial, fun n =>
      ⟨fun h => Finset.mem_union_right _ h, fun h => Finset.mem_union_right _ h,
       fun h => Finset.mem_union_right _ h⟩⟩

/-- Claim C4 witness: concrete instance of the Variables registry
equation. -/
theorem C4_witness :
    (clean_history (fun _ => some []) (fun _ => []) ⟨[], {"a"}, ∅, ∅⟩ {"a"} ∅ ∅).1.mypy_var_names
      = (({"a"} : Finset String) \ remove_var_set {"a"} ∅ ∅ {"a"}) ∪ {"a"} :=
  (C4_registry_update (fun _ => some []) (fun _ => []) ⟨[], {"a"}, ∅, ∅⟩ {"a"} ∅ ∅
    (fun _ => rfl)).1

/-- Claim C8: when some purge set is non-empty but the current buffer fails
to re-parse, `clean_history` reports the error and returns with every state
field (buffer text and registries) exactly as it was. -/
theorem C8_corruption_guard (parse : Parse) (to_source : ToSource) (s : MypyState)
    (new_var new_annotated new_classfunc : Finset String)
    (hne : (remove_var_set new_var new_annotated new_classfunc s.mypy_var_names).Nonempty ∨
      (remove_annotated_set new_annotated new_classfunc s.mypy_annotated_names).Nonempty ∨
      (remove_classfunc_set new_var new_annotated new_classfunc s.mypy_classfunc_names).Nonempty)
    (hparse : parse s.mypy_cells = none) :
    clean_history parse to_source s new_var new_annotated new_classfunc = (s, true) := by
  simp only [clean_history, if_pos hne, hparse]

/-- Claim C8 witness: a non-parsing buffer with a purge pending leaves the
state untouched and reports the error. -/
theorem C8_witness :
    clean_history (fun _ => none) (fun _ => []) ⟨("def (").toList, {"a"}, ∅, ∅⟩ {"a"} ∅ ∅
      = (⟨("def (").toList, {"a"}, ∅, ∅⟩, true) :=
  C8_corruption_guard (fun _ => none) (fun _ => []) ⟨("def (").toList, {"a"}, ∅, ∅⟩
    {"a"} ∅ ∅ (Or.inl (by decide)) rfl

/-- Claim C9 counterexample: a status code 2 (the argument/usage fault
status) with empty error text does NOT reset the extra flags, so the claim
as stated (reset whenever the status indicates an argument fault) fails. -/
theorem C9_counterexample :
    (handle_mypy_errors ["--bad-flag"] ("") 2).additional_args = ["--bad-flag"] ∧
    (handle_mypy_errors ["--bad-flag"] ("") 2).logged_args_error = false ∧
    ["--bad-flag"] ≠ ([] : List String) := by
  refine ⟨rfl, rfl, by simp⟩

/-- Claim C9 (amended): when the error text is non-empty AND the status
code is 2, the extra flags are reset to empty and the descriptive error is
surfaced; with any other status, or with empty error text, the configured
extra flags are left unchanged. -/
theorem C9_amended (args : List String) (stderrText : String) (status : Int) :
    (stderrText ≠ "" → status = 2 →
      handle_mypy_errors args stderrText status = ⟨[], true, true⟩) ∧
    (status ≠ 2 → (handle_mypy_errors args stderrText status).additional_args = args) ∧
    (stderrText = "" → handle_mypy_errors args stderrText status = ⟨args, false, false⟩) := by
  unfold handle_mypy_errors
  split_ifs with h1 h2 <;> simp_all

/-- Claim C9 witness: concrete instances of the three behaviours. -/
theorem C9_witness :
    handle_mypy_errors ["--x"] ("usage: mypy") 2 = ⟨[], true, true⟩ ∧
    (handle_mypy_errors ["--x"] ("some error") 0).additional_args = ["--x"] ∧
    handle_mypy_errors ["--x"] ("") 2 = ⟨["--x"], false, false⟩ :=
  ⟨(C9_amended ["--x"] ("usage: mypy") 2).1 (by simp) rfl,
   (C9_amended ["--x"] ("some error") 0).2.1 (by omega),
   (C9_amended ["--x"] ("") 2).2.2 rfl⟩

/-- Claim C10: a stdout line on which the pseudo-filename marker pattern
`(<[a-z]+>:)(\d+)(.*?)$` finds no match produces no re-emitted diagnostic,
regardless of the offset. -/
theorem C10_nonmatching_line_dropped (offset : Nat) (line : List Char)
    (hnl : '\n' ∉ line) (h : diag_find line = none) :
    process_diag_line offset line = none := by
  unfold process_diag_line
  rw [h]

/-- Claim C10 witness: the mypy summary line is dropped. -/
theorem C10_witness :
    process_diag_line 0 ("Found 1 error in 1 file (checked 1 source file)").toList = none :=
  C10_nonmatching_line_dropped 0 ("Found 1 error in 1 file (checked 1 source file)").toList
    (by decide) (by decide)

/-- Claim C2: for a stdout line matched by the marker pattern, the
diagnostic is re-emitted exactly when its absolute line number strictly
exceeds the pre-append buffer line count
(`len(self.mypy_cells.split('\n')) - 1` of the buffer before the fragment
text is appended), and then it is re-emitted as `<cell>` followed by the
fragment-relative number (absolute minus offset) and the offset-corrected
message; at or below the offset nothing is re-emitted. -/
theorem C2_offset_remap (cells line : List Char) (pre ds msg : List Char)
    (hnl : '\n' ∉ line)
    (h : diag_find line = some (pre, ds, msg)) :
    (digitsToNat ds ≤ mypy_cells_length cells →
      process_diag_line (mypy_cells_length cells) line = none) ∧
    (mypy_cells_length cells < digitsToNat ds →
      process_diag_line (mypy_cells_length cells) line =
        some (("<cell>").toList
          ++ (toString (digitsToNat ds - mypy_cells_length cells)).toList
          ++ fix_line_nr msg (mypy_cells_length cells : Int))) := by
  unfold process_diag_line
  rw [h]
  dsimp only
  constructor
  · intro hle
    rw [if_neg (by omega)]
  · intro hlt
    rw [if_pos hlt]

/-- Claim C6: the preprocessor leaves an all-whitespace line unchanged;
for a non-blank line whose first non-whitespace character is one of the
sigils `%`, `!`, `?` or whose last character is `?`, it keeps the leading
whitespace and replaces the remainder with the no-op `pass #` followed by
the original remainder as a trailing comment (newline count is preserved);
every other line is returned unchanged. -/
theorem C6_preprocessor (line : List Char) :
    (line.all pyIsSpace = true → comment_magic line = line) ∧
    (∀ c rest, line.dropWhile pyIsSpace = c :: rest →
      ((c = '%' ∨ c = '!' ∨ c = '?' ∨ line.getLast? = some '?') →
        comment_magic line =
          line.takeWhile pyIsSpace ++ ("pass #").toList ++ line.dropWhile pyIsSpace) ∧
      (¬(c = '%' ∨ c = '!' ∨ c = '?' ∨ line.getLast? = some '?') →
        comment_magic line = line)) ∧
    (comment_magic line).count '\n' = line.count '\n' := by
  refine ⟨?_, ?_, ?_⟩
  · intro hall
    rw [comment_magic_eq, if_pos ((first_none_whitspace_ge_iff line).mpr hall)]
  · intro c rest hdrop
    have hne : line ≠ [] := by
      intro h0
      subst h0
      simp at hdrop
    have hnb : ¬ (first_none_whitspace line ≥ line.length) := by
      rw [first_none_whitspace_ge_iff]
      intro hall
      have hnil : line.dropWhile pyIsSpace = [] :=
        List.dropWhile_eq_nil_iff.mpr (fun x hx => by
          simpa using List.all_eq_true.mp hall x hx)
      rw [hnil] at hdrop
      exact List.noConfusion hdrop
    have hhead : (line.dropWhile pyIsSpace).headD ' ' = c := by
      rw [hdrop]
      rfl
    have hlast : (line.getLastD ' ' = '?') = (line.getLast? = some '?') := by
      rw [List.getLastD_eq_getLast?]
      cases hgl : line.getLast? with
      | none => exact absurd (List.getLast?_eq_none_iff.mp hgl) hne
      | some x => simp
    rw [comment_magic_eq, if_neg hnb, hhead]
    simp only [hlast]
    constructor
    · intro hcond
      rw [if_pos hcond]
    · intro hcond
      rw [if_neg hcond]
  · rw [comment_magic_eq]
    split_ifs with h1 h2
    · rfl
    · have hsplit : line.count '\n' =
          (line.takeWhile pyIsSpace).count '\n' + (line.dropWhile pyIsSpace).count '\n' := by
        conv_lhs => rw [← List.takeWhile_append_dropWhile pyIsSpace line]
        rw [List.count_append]
      rw [List.count_append, List.count_append, hsplit]
      have : (("pass #").toList).count '\n' = 0 := by decide
      omega
    · rfl

/-- Claim C6 witness: a magic line with leading indentation is commented
out in place, and a plain line is unchanged. -/
theorem C6_witness :
    comment_magic ("  %load_ext nb_mypy").toList = ("  pass #%load_ext nb_mypy").toList ∧
    comment_magic ("x = 1").toList = ("x = 1").toList := by
  constructor
  · have h := ((C6_preprocessor (("  %load_ext nb_mypy").toList)).2.1 '%'
      (("load_ext nb_mypy").toList) (by decide)).1 (Or.inl rfl)
    rw [h]
    decide
  · exact ((C6_preprocessor (("x = 1").toList)).2.1 'x' ((" = 1").toList) (by decide)).2
      (by decide)

/-- Claim C2 witness: with a two-line buffer (offset 2), the absolute line
5 diagnostic is re-emitted as relative line 3, and an absolute line 2
diagnostic is suppressed. -/
theorem C2_witness :
    process_diag_line (mypy_cells_length (("x = 1\ny = 2\n").toList))
        (("<cell>:5: error: bad").toList)
      = some (("<cell>3: error: bad").toList) ∧
    process_diag_line (mypy_cells_length (("x = 1\ny = 2\n").toList))
        (("<cell>:2: error: old").toList) = none := by
  constructor
  · have h := (C2_offset_remap (("x = 1\ny = 2\n").toList) (("<cell>:5: error: bad").toList)
      (("<cell>:").toList) (['5']) ((": error: bad").toList) (by decide) (by decide)).2
      (by decide)
    rw [h, fix_line_nr_eq_self _ (by decide)]
    decide
  · exact (C2_offset_remap (("x = 1\ny = 2\n").toList) (("<cell>:2: error: old").toList)
      (("<cell>:").toList) (['2']) ((": error: old").toList) (by decide) (by decide)).1
      (by decide)

/-- Claim C3 counterexample: processing the scenario fragments
`a = 1`, `a = 'x'`, `def f(): pass`, `def f(x: int) -> int: return x` from
an empty session (under table oracles implementing the parses) ends with
Variables registry `{a}`, not `∅` as the claim states — nothing ever
purges the plain variable `a`. -/
theorem C3_counterexample :
    (c3_run c3_parse c3_to_source).mypy_var_names = {"a"} ∧
    ({"a"} : Finset String) ≠ (∅ : Finset String) := by
  constructor
  · decide
  · decide

/-- Claim C3 (amended): the scenario ends with Variables = `{a}` (the
plain variable `a` stays registered), AnnotatedVariables = `∅`,
Callables = `{f}`, and the final buffer holds exactly one live definition
of `f` — the later one, with the fragment-4 signature and body. -/
theorem C3_amended (parse : Parse) (to_source : ToSource)
    (h1 : parse c3_frag1 = some c3_ast1)
    (h2 : parse c3_frag2 = some c3_ast2)
    (h3 : parse c3_frag3 = some c3_ast3)
    (h4 : parse c3_frag4 = some c3_ast4)
    (h5 : parse (c3_frag1 ++ ['\n']) = some c3_ast1)
    (h6 : parse (to_source [Stmt.pass] ++ c3_frag2 ++ ['\n'] ++ c3_frag3 ++ ['\n'])
        = some [Stmt.pass, Stmt.assign [Target.name ("a")] c3_val2,
                Stmt.funcdef ("f") c3_sig3 [Stmt.pass]])
    (h7 : parse (to_source [Stmt.assign [Target.name ("a")] c3_val2, Stmt.pass]
          ++ c3_frag4 ++ ['\n']) = some c3_final_ast) :
    (c3_run parse to_source).mypy_var_names = {"a"} ∧
    (c3_run parse to_source).mypy_annotated_names = (∅ : Finset String) ∧
    (c3_run parse to_source).mypy_classfunc_names = {"f"} ∧
    parse (c3_run parse to_source).mypy_cells = some c3_final_ast ∧
    defsNamed ("f") c3_final_ast = [Stmt.funcdef ("f") c3_sig4 [Stmt.ret ("x")]] := by
  have e1 : type_check_cell parse to_source ⟨[], ∅, ∅, ∅⟩ c3_frag1
      = (⟨c3_frag1 ++ ['\n'], {"a"}, ∅, ∅⟩, false) := by
    unfold type_check_cell
    rw [if_neg (by decide), show cell_filter_of c3_frag1 = c3_frag1 from by decide]
    simp only [h1]
    rfl
  have e2 : type_check_cell parse to_source ⟨c3_frag1 ++ ['\n'], {"a"}, ∅, ∅⟩ c3_frag2
      = (⟨to_source [Stmt.pass] ++ c3_frag2 ++ ['\n'], {"a"}, ∅, ∅⟩, false) := by
    unfold type_check_cell
    rw [if_neg (by decide), show cell_filter_of c3_frag2 = c3_frag2 from by decide]
    simp only [h2]
    unfold clean_history
    simp only [h5]
    rfl
  have e3 : type_check_cell parse to_source
      ⟨to_source [Stmt.pass] ++ c3_frag2 ++ ['\n'], {"a"}, ∅, ∅⟩ c3_frag3
      = (⟨to_source [Stmt.pass] ++ c3_frag2 ++ ['\n'] ++ c3_frag3 ++ ['\n'],
          {"a"}, ∅, {"f"}⟩, false) := by
    unfold type_check_cell
    rw [if_neg (by decide), show cell_filter_of c3_frag3 = c3_frag3 from by decide]
    simp only [h3]
    rfl
  have e4 : type_check_cell parse to_source
      ⟨to_source [Stmt.pass] ++ c3_frag2 ++ ['\n'] ++ c3_frag3 ++ ['\n'], {"a"}, ∅, {"f"}⟩
      c3_frag4
      = (⟨to_source [Stmt.assign [Target.name ("a")] c3_val2, Stmt.pass]
            ++ c3_frag4 ++ ['\n'], {"a"}, ∅, {"f"}⟩, false) := by
    unfold type_check_cell
    rw [if_neg (by decide), show cell_filter_of c3_frag4 = c3_frag4 from by decide]
    simp only [h4]
    unfold clean_history
    simp only [h6]
    rfl
  unfold c3_run
  rw [e1]
  dsimp only
  rw [e2]
  dsimp only
  rw [e3]
  dsimp only
  rw [e4]
  exact ⟨rfl, rfl, rfl, h7, rfl⟩

/-- Claim C3 witness: the amended theorem evaluated on the table
oracles. -/
theorem C3_witness :
    (c3_run c3_parse c3_to_source).mypy_var_names = {"a"} ∧
    (c3_run c3_parse c3_to_source).mypy_annotated_names = (∅ : Finset String) ∧
    (c3_run c3_parse c3_to_source).mypy_classfunc_names = {"f"} ∧
    c3_parse (c3_run c3_parse c3_to_source).mypy_cells = some c3_final_ast ∧
    defsNamed ("f") c3_final_ast = [Stmt.funcdef ("f") c3_sig4 [Stmt.ret ("x")]] :=
  C3_amended c3_parse c3_to_source rfl rfl rfl rfl rfl rfl rfl


mutual

/-- Ordinary extraction gathers a subset of replace-mode extraction on any
target. -/
theorem namesOfTarget_replace_subset (t : Target) :
    namesOfTarget false t ⊆ namesOfTarget true t := by
  cases t with
  | name s => simp [namesOfTarget]
  | tup elts => simpa [namesOfTarget] using namesOfTargets_replace_subset elts
  | attributeAccess base a => simp [namesOfTarget]
  | subscript base => simp [namesOfTarget]

/-- Ordinary extraction gathers a subset of replace-mode extraction on a
target list. -/
theorem namesOfTargets_replace_subset (ts : List Target) :
    namesOfTargets false ts ⊆ namesOfTargets true ts := by
  cases ts with
  | nil => simp [namesOfTargets]
  | cons t ts' =>
    simp only [namesOfTargets]
    exact Finset.union_subset_union (namesOfTarget_replace_subset t)
      (namesOfTargets_replace_subset ts')

end

theorem live_var_names_cons (s : Stmt) (m : List Stmt) :
    live_var_names (s :: m) = (names_lister_stmt false s).var_names ∪ live_var_names m := rfl

theorem live_annotated_names_cons (s : Stmt) (m : List Stmt) :
    live_annotated_names (s :: m)
      = (names_lister_stmt false s).annotated_names ∪ live_annotated_names m := rfl

theorem live_classfunc_names_cons (s : Stmt) (m : List Stmt) :
    live_classfunc_names (s :: m)
      = (names_lister_stmt false s).classfunc_names ∪ live_classfunc_names m := rfl

theorem live_var_names_append (m1 m2 : List Stmt) :
    live_var_names (m1 ++ m2) = live_var_names m1 ∪ live_var_names m2 := by
  induction m1 with
  | nil => simp [live_var_names, names_lister]
  | cons s m1' ih => simp [List.cons_append, live_var_names_cons, ih, Finset.union_assoc]

theorem live_annotated_names_append (m1 m2 : List Stmt) :
    live_annotated_names (m1 ++ m2) = live_annotated_names m1 ∪ live_annotated_names m2 := by
  induction m1 with
  | nil => simp [live_annotated_names, names_lister]
  | cons s m1' ih =>
    simp [List.cons_append, live_annotated_names_cons, ih, Finset.union_assoc]

theorem live_classfunc_names_append (m1 m2 : List Stmt) :
    live_classfunc_names (m1 ++ m2) = live_classfunc_names m1 ∪ live_classfunc_names m2 := by
  induction m1 with
  | nil => simp [live_classfunc_names, names_lister]
  | cons s m1' ih =>
    simp [List.cons_append, live_classfunc_names_cons, ih, Finset.union_assoc]

/-- A statement surviving `Replacer` declares, in each category, only
names it declared before, and none from the corresponding purge set. -/
theorem replacer_stmt_subset (kv ka kc : Finset String) (st : Stmt) :
    (names_lister_stmt false (replacer_stmt kv ka kc st)).var_names
      ⊆ (names_lister_stmt false st).var_names \ kv ∧
    (names_lister_stmt false (replacer_stmt kv ka kc st)).annotated_names
      ⊆ (names_lister_stmt false st).annotated_names \ ka ∧
    (names_lister_stmt false (replacer_stmt kv ka kc st)).classfunc_names
      ⊆ (names_lister_stmt false st).classfunc_names \ kc := by
  cases st with
  | pass => refine ⟨?_, ?_, ?_⟩ <;> simp [replacer_stmt, names_lister_stmt]
  | expr t => refine ⟨?_, ?_, ?_⟩ <;> simp [replacer_stmt, names_lister_stmt]
  | ret v => refine ⟨?_, ?_, ?_⟩ <;> simp [replacer_stmt, names_lister_stmt]
  | funcdef n sig body =>
    simp only [replacer_stmt]
    by_cases hn : n ∈ kc
    · rw [if_pos hn]
      refine ⟨?_, ?_, ?_⟩ <;> simp [names_lister_stmt]
    · rw [if_neg hn]
      refine ⟨by simp [names_lister_stmt], by simp [names_lister_stmt], ?_⟩
      simp only [names_lister_stmt]
      rw [Finset.subset_sdiff]
      exact ⟨Finset.Subset.refl _, by simpa using hn⟩
  | asyncFuncdef n sig body =>
    simp only [replacer_stmt]
    by_cases hn : n ∈ kc
    · rw [if_pos hn]
      refine ⟨?_, ?_, ?_⟩ <;> simp [names_lister_stmt]
    · rw [if_neg hn]
      refine ⟨by simp [names_lister_stmt], by simp [names_lister_stmt], ?_⟩
      simp only [names_lister_stmt]
      rw [Finset.subset_sdiff]
      exact ⟨Finset.Subset.refl _, by simpa using hn⟩
  | classdef n body =>
    simp only [replacer_stmt]
    by_cases hn : n ∈ kc
    · rw [if_pos hn]
      refine ⟨?_, ?_, ?_⟩ <;> simp [names_lister_stmt]
    · rw [if_neg hn]
      refine ⟨by simp [names_lister_stmt], by simp [names_lister_stmt], ?_⟩
      simp only [names_lister_stmt]
      rw [Finset.subset_sdiff]
      exact ⟨Finset.Subset.refl _, by simpa using hn⟩
  | assign ts v =>
    simp only [replacer_stmt]
    by_cases hc : (names_lister_stmt true (Stmt.assign ts v)).var_names ∩ kv ≠ ∅
    · rw [if_pos hc]
      refine ⟨?_, ?_, ?_⟩ <;> simp [names_lister_stmt]
    · rw [if_neg hc]
      push_neg at hc
      refine ⟨?_, by simp [names_lister_stmt], by simp [names_lister_stmt]⟩
      simp only [names_lister_stmt]
      rw [Finset.subset_sdiff]
      refine ⟨Finset.Subset.refl _, ?_⟩
      rw [Finset.disjoint_left]
      intro x hx hxkv
      have hx' : x ∈ (names_lister_stmt true (Stmt.assign ts v)).var_names := by
        simpa [names_lister_stmt] using namesOfTargets_replace_subset ts hx
      exact absurd (hc ▸ Finset.mem_inter.mpr ⟨hx', hxkv⟩) (Finset.not_mem_empty x)
  | augAssign t v =>
    simp only [replacer_stmt]
    by_cases hc : (names_lister_stmt true (Stmt.augAssign t v)).var_names ∩ kv ≠ ∅
    · rw [if_pos hc]
      refine ⟨?_, ?_, ?_⟩ <;> simp [names_lister_stmt]
    · rw [if_neg hc]
      push_neg at hc
      refine ⟨?_, by simp [names_lister_stmt], by simp [names_lister_stmt]⟩
      simp only [names_lister_stmt]
      rw [Finset.subset_sdiff]
      refine ⟨Finset.Subset.refl _, ?_⟩
      rw [Finset.disjoint_left]
      intro x hx hxkv
      have hx' : x ∈ (names_lister_stmt true (Stmt.augAssign t v)).var_names := by
        simpa [names_lister_stmt] using namesOfTarget_replace_subset t hx
      exact absurd (hc ▸ Finset.mem_inter.mpr ⟨hx', hxkv⟩) (Finset.not_mem_empty x)
  | annAssign t a v =>
    simp only [replacer_stmt]
    by_cases hc : (names_lister_stmt true (Stmt.annAssign t a v)).annotated_names ∩ ka ≠ ∅
    · rw [if_pos hc]
      refine ⟨?_, ?_, ?_⟩ <;> simp [names_lister_stmt]
    · rw [if_neg hc]
      push_neg at hc
      refine ⟨by simp [names_lister_stmt], ?_, by simp [names_lister_stmt]⟩
      simp only [names_lister_stmt]
      rw [Finset.subset_sdiff]
      refine ⟨Finset.Subset.refl _, ?_⟩
      rw [Finset.disjoint_left]
      intro x hx hxka
      have hx' : x ∈ (names_lister_stmt true (Stmt.annAssign t a v)).annotated_names := by
        simpa [names_lister_stmt] using namesOfTarget_replace_subset t hx
      exact absurd (hc ▸ Finset.mem_inter.mpr ⟨hx', hxka⟩) (Finset.not_mem_empty x)

/-- The rewritten buffer declares, per category, only names the old buffer
declared minus the corresponding purge set. -/
theorem replacer_module_subset (kv ka kc : Finset String) (m : List Stmt) :
    live_var_names (replacer_module kv ka kc m) ⊆ live_var_names m \ kv ∧
    live_annotated_names (replacer_module kv ka kc m) ⊆ live_annotated_names m \ ka ∧
    live_classfunc_names (replacer_module kv ka kc m) ⊆ live_classfunc_names m \ kc := by
  induction m with
  | nil =>
    refine ⟨?_, ?_, ?_⟩ <;> simp [replacer_module, live_var_names,
      live_annotated_names, live_classfunc_names, names_lister]
  | cons st m' ih =>
    by_cases hk : (match st with | .pass => false | .expr _ => false | _ => true) = true
    · have hmod : replacer_module kv ka kc (st :: m')
          = replacer_stmt kv ka kc st :: replacer_module kv ka kc m' := by
        simp [replacer_module, List.filter_cons, hk]
      obtain ⟨ihv, iha, ihc⟩ := ih
      obtain ⟨stv, sta, stc⟩ := replacer_stmt_subset kv ka kc st
      rw [hmod]
      refine ⟨?_, ?_, ?_⟩
      · rw [live_var_names_cons, live_var_names_cons, Finset.union_sdiff_distrib]
        exact Finset.union_subset_union stv ihv
      · rw [live_annotated_names_cons, live_annotated_names_cons,
          Finset.union_sdiff_distrib]
        exact Finset.union_subset_union sta iha
      · rw [live_classfunc_names_cons, live_classfunc_names_cons,
          Finset.union_sdiff_distrib]
        exact Finset.union_subset_union stc ihc
    · have hmod : replacer_module kv ka kc (st :: m') = replacer_module kv ka kc m' := by
        simp only [replacer_module, List.filter_cons]
        rw [if_neg hk]
      obtain ⟨ihv, iha, ihc⟩ := ih
      rw [hmod]
      refine ⟨?_, ?_, ?_⟩
      · refine ihv.trans (Finset.sdiff_subset_sdiff ?_ (Finset.Subset.refl _))
        rw [live_var_names_cons]
        exact Finset.subset_union_right
      · refine iha.trans (Finset.sdiff_subset_sdiff ?_ (Finset.Subset.refl _))
        rw [live_annotated_names_cons]
        exact Finset.subset_union_right
      · refine ihc.trans (Finset.sdiff_subset_sdiff ?_ (Finset.Subset.refl _))
        rw [live_classfunc_names_cons]
        exact Finset.subset_union_right

/-- Claim C7 counterexample: after `a, b = 1, 2` then `a = 3`, the
Variables registry still contains `b` while the buffer no longer declares
`b` anywhere (the whole multi-target assignment was collapsed to `pass`),
so registry and buffer DO diverge and the claimed exact correspondence is
false. -/
theorem C7_counterexample :
    "b" ∈ c7_run.mypy_var_names ∧
    c7_parse c7_run.mypy_cells = some [Stmt.pass, Stmt.assign [Target.name ("a")] ("3")] ∧
    "b" ∉ live_var_names [Stmt.pass, Stmt.assign [Target.name ("a")] ("3")] :=
  ⟨by decide, rfl, by decide⟩

/-- Claim C7 (amended): the registries over-approximate the buffer — after
processing a fragment, every name live in the (re-parsed) buffer for a
category belongs to that category registry, provided it did before; the
exact converse fails because a purge may remove co-bound names from the
buffer that stay registered. -/
theorem C7_amended (parse : Parse) (to_source : ToSource) (s : MypyState)
    (cell : List Char) (m frag : List Stmt)
    (hm : parse s.mypy_cells = some m)
    (hv : live_var_names m ⊆ s.mypy_var_names)
    (ha : live_annotated_names m ⊆ s.mypy_annotated_names)
    (hc : live_classfunc_names m ⊆ s.mypy_classfunc_names)
    (hfrag : parse (cell_filter_of cell) = some frag)
    (happ1 : parse (to_source (replacer_module
          (remove_var_set (names_lister false frag).var_names
            (names_lister false frag).annotated_names
            (names_lister false frag).classfunc_names s.mypy_var_names)
          (remove_annotated_set (names_lister false frag).annotated_names
            (names_lister false frag).classfunc_names s.mypy_annotated_names)
          (remove_classfunc_set (names_lister false frag).var_names
            (names_lister false frag).annotated_names
            (names_lister false frag).classfunc_names s.mypy_classfunc_names) m)
        ++ cell_filter_of cell ++ ['\n'])
      = some (replacer_module
          (remove_var_set (names_lister false frag).var_names
            (names_lister false frag).annotated_names
            (names_lister false frag).classfunc_names s.mypy_var_names)
          (remove_annotated_set (names_lister false frag).annotated_names
            (names_lister false frag).classfunc_names s.mypy_annotated_names)
          (remove_classfunc_set (names_lister false frag).var_names
            (names_lister false frag).annotated_names
            (names_lister false frag).classfunc_names s.mypy_classfunc_names) m ++ frag))
    (happ2 : parse (s.mypy_cells ++ cell_filter_of cell ++ ['\n']) = some (m ++ frag)) :
    ∀ m', parse (type_check_cell parse to_source s cell).1.mypy_cells = some m' →
      live_var_names m' ⊆ (type_check_cell parse to_source s cell).1.mypy_var_names ∧
      live_annotated_names m'
        ⊆ (type_check_cell parse to_source s cell).1.mypy_annotated_names ∧
      live_classfunc_names m'
        ⊆ (type_check_cell parse to_source s cell).1.mypy_classfunc_names := by
  intro m' hm'
  by_cases hmagic : (['%', '%'].isPrefixOf cell) = true
  · unfold type_check_cell at hm' ⊢
    rw [if_pos hmagic] at hm' ⊢
    dsimp only at hm' ⊢
    rw [hm] at hm'
    obtain rfl : m = m' := Option.some.inj hm'
    exact ⟨hv, ha, hc⟩
  · unfold type_check_cell at hm' ⊢
    rw [if_neg hmagic] at hm' ⊢
    simp only [hfrag] at hm' ⊢
    unfold clean_history at hm' ⊢
    by_cases hcond : (remove_var_set (names_lister false frag).var_names
        (names_lister false frag).annotated_names
        (names_lister false frag).classfunc_names s.mypy_var_names).Nonempty ∨
      (remove_annotated_set (names_lister false frag).annotated_names
        (names_lister false frag).classfunc_names s.mypy_annotated_names).Nonempty ∨
      (remove_classfunc_set (names_lister false frag).var_names
        (names_lister false frag).annotated_names
        (names_lister false frag).classfunc_names s.mypy_classfunc_names).Nonempty
    · rw [if_pos hcond] at hm' ⊢
      simp only [hm] at hm' ⊢
      dsimp only [update_registries] at hm' ⊢
      rw [happ1] at hm'
      obtain rfl := (Option.some.inj hm').symm
      refine ⟨?_, ?_, ?_⟩
      · rw [live_var_names_append]
        apply Finset.union_subset
        · exact ((replacer_module_subset _ _ _ m).1.trans
            (Finset.sdiff_subset_sdiff hv (Finset.Subset.refl _))).trans
            Finset.subset_union_left
        · exact Finset.subset_union_right
      · rw [live_annotated_names_append]
        apply Finset.union_subset
        · exact ((replacer_module_subset _ _ _ m).2.1.trans
            (Finset.sdiff_subset_sdiff ha (Finset.Subset.refl _))).trans
            Finset.subset_union_left
        · exact Finset.subset_union_right
      · rw [live_classfunc_names_append]
        apply Finset.union_subset
        · exact ((replacer_module_subset _ _ _ m).2.2.trans
            (Finset.sdiff_subset_sdiff hc (Finset.Subset.refl _))).trans
            Finset.subset_union_left
        · exact Finset.subset_union_right
    · rw [if_neg hcond] at hm' ⊢
      dsimp only [update_registries] at hm' ⊢
      rw [happ2] at hm'
      obtain rfl := (Option.some.inj hm').symm
      push_neg at hcond
      obtain ⟨he1, he2, he3⟩ := hcond
      rw [Finset.not_nonempty_iff_eq_empty] at he1 he2 he3
      refine ⟨?_, ?_, ?_⟩
      · rw [live_var_names_append, he1, Finset.sdiff_empty]
        apply Finset.union_subset
        · exact hv.trans Finset.subset_union_left
        · exact Finset.subset_union_right
      · rw [live_annotated_names_append, he2, Finset.sdiff_empty]
        apply Finset.union_subset
        · exact ha.trans Finset.subset_union_left
        · exact Finset.subset_union_right
      · rw [live_classfunc_names_append, he3, Finset.sdiff_empty]
        apply Finset.union_subset
        · exact hc.trans Finset.subset_union_left
        · exact Finset.subset_union_right

/-- Claim C7 witness: the preserved inclusion evaluated on a concrete
redefinition step (`x = 1` in history, fragment `x = 2`). -/
theorem C7_witness :
    live_var_names [Stmt.pass, Stmt.assign [Target.name ("x")] ("2")]
      ⊆ (type_check_cell c7w_parse c7w_to_source
          ⟨("x = 1\n").toList, {"x"}, ∅, ∅⟩ (("x = 2").toList)).1.mypy_var_names ∧
    live_annotated_names [Stmt.pass, Stmt.assign [Target.name ("x")] ("2")]
      ⊆ (type_check_cell c7w_parse c7w_to_source
          ⟨("x = 1\n").toList, {"x"}, ∅, ∅⟩ (("x = 2").toList)).1.mypy_annotated_names ∧
    live_classfunc_names [Stmt.pass, Stmt.assign [Target.name ("x")] ("2")]
      ⊆ (type_check_cell c7w_parse c7w_to_source
          ⟨("x = 1\n").toList, {"x"}, ∅, ∅⟩ (("x = 2").toList)).1.mypy_classfunc_names :=
  C7_amended c7w_parse c7w_to_source ⟨("x = 1\n").toList, {"x"}, ∅, ∅⟩ (("x = 2").toList)
    [Stmt.assign [Target.name ("x")] ("1")] [Stmt.assign [Target.name ("x")] ("2")]
    rfl (by decide) (by decide) (by decide) rfl rfl rfl
    [Stmt.pass, Stmt.assign [Target.name ("x")] ("2")] rfl

theorem fix_all_nil (offset : Int) : fix_all_line_refs [] offset = [] := by
  rw [fix_all_line_refs.eq_def]
  split
  · next w ds r heq => exact absurd heq (by simp [lineRefMatchHere])
  · rfl

theorem fix_all_cons_of_none {c : Char} {cs : List Char} (offset : Int)
    (h : lineRefMatchHere (c :: cs) = none) :
    fix_all_line_refs (c :: cs) offset = c :: fix_all_line_refs cs offset := by
  rw [fix_all_line_refs.eq_def]
  split
  · next w ds r heq => rw [h] at heq; exact absurd heq (by simp)
  · rfl

theorem fix_all_of_matchHere_some {l : List Char} {w : Char} {ds r : List Char} (offset : Int)
    (h : lineRefMatchHere l = some (w, ds, r)) :
    fix_all_line_refs l offset =
      'l' :: 'i' :: 'n' :: 'e' :: w ::
        ((toString ((digitsToNat ds : Int) - offset)).toList ++ fix_all_line_refs r offset) := by
  rw [fix_all_line_refs.eq_def]
  split
  · next w' ds' r' heq =>
    rw [h] at heq
    simp only [Option.some.injEq, Prod.mk.injEq] at heq
    obtain ⟨h1, h2, h3⟩ := heq
    subst h1 h2 h3
    rfl
  · next heq =>
    rw [h] at heq
    exact absurd heq (by simp)

theorem lineRefSplit_cons_none {c : Char} {cs : List Char}
    (h : lineRefSplit (c :: cs) = none) :
    lineRefMatchHere (c :: cs) = none ∧ lineRefSplit cs = none := by
  rw [lineRefSplit] at h
  cases hcs : lineRefSplit cs with
  | some res =>
    obtain ⟨b, w, ds, r⟩ := res
    rw [hcs] at h
    exact absurd h (by simp)
  | none =>
    rw [hcs] at h
    cases hmh : lineRefMatchHere (c :: cs) with
    | some res =>
      obtain ⟨w, ds, r⟩ := res
      rw [hmh] at h
      exact absurd h (by simp)
    | none => exact ⟨rfl, rfl⟩

theorem lineRefSplit_append_none {y z : List Char}
    (h : lineRefSplit (y ++ z) = none) : lineRefSplit z = none := by
  induction y with
  | nil => exact h
  | cons c y' ih =>
    rw [List.cons_append] at h
    exact ih (lineRefSplit_cons_none h).2

theorem fix_all_of_none {l : List Char} (offset : Int)
    (h : lineRefSplit l = none) : fix_all_line_refs l offset = l := by
  induction l with
  | nil => exact fix_all_nil offset
  | cons c cs ih =>
    obtain ⟨hmh, hcs⟩ := lineRefSplit_cons_none h
    rw [fix_all_cons_of_none offset hmh, ih hcs]

/-- Full inversion of `lineRefSplit`: structural decomposition, maximality
of the digit run, and absence of any occurrence in the remainder. -/
theorem lineRefSplit_inv {l b : List Char} {w : Char} {ds r : List Char}
    (h : lineRefSplit l = some (b, w, ds, r)) :
    l = b ++ 'l' :: 'i' :: 'n' :: 'e' :: w :: (ds ++ r) ∧
    ds = (ds ++ r).takeWhile Char.isDigit ∧
    r = (ds ++ r).dropWhile Char.isDigit ∧
    ds ≠ [] ∧ pyIsSpace w = true ∧ lineRefSplit r = none := by
  induction l generalizing b with
  | nil => simp [lineRefSplit] at h
  | cons c cs ih =>
    rw [lineRefSplit] at h
    cases hcs : lineRefSplit cs with
    | some res =>
      obtain ⟨b', w', ds', r'⟩ := res
      rw [hcs] at h
      simp only [Option.some.injEq, Prod.mk.injEq] at h
      obtain ⟨hb, hw, hds, hr⟩ := h
      subst hw hds hr
      obtain ⟨e1, e2, e3, e4, e5, e6⟩ := ih hcs
      subst hb
      exact ⟨by simp [e1], e2, e3, e4, e5, e6⟩
    | none =>
      rw [hcs] at h
      cases hmh : lineRefMatchHere (c :: cs) with
      | some res =>
        obtain ⟨w', ds', r'⟩ := res
        rw [hmh] at h
        simp only [Option.some.injEq, Prod.mk.injEq] at h
        obtain ⟨hb, hw, hds, hr⟩ := h
        subst hb hw hds hr
        obtain ⟨e1, e2, e3, e4, e5⟩ := lineRefMatchHere_eq_some hmh
        refine ⟨by simpa using e1, e2, e3, e4, e5, ?_⟩
        have hcs2 : cs = ('i' :: 'n' :: 'e' :: w' :: ds') ++ r' := by
          have := (List.cons.injEq c cs 'l' ('i' :: 'n' :: 'e' :: w' :: (ds' ++ r'))).mp e1
          simpa using this.2
        rw [hcs2] at hcs
        exact lineRefSplit_append_none hcs
      | none =>
        rw [hmh] at h
        exact absurd h (by simp)

/-- Appending text that starts with a non-digit after a candidate match
region does not change which occurrence `lineRefMatchHere` finds, only
extends the remainder. -/
theorem lineRefMatchHere_append_stop (a b c d w : Char) (t z : List Char)
    (hz : z.takeWhile Char.isDigit = []) :
    lineRefMatchHere (a :: b :: c :: d :: w :: (t ++ z)) =
      (lineRefMatchHere (a :: b :: c :: d :: w :: t)).map
        (fun p => (p.1, p.2.1, p.2.2 ++ z)) := by
  have hzd : z.dropWhile Char.isDigit = z := by
    have h0 := List.takeWhile_append_dropWhile Char.isDigit z
    rwa [hz, List.nil_append] at h0
  have ht : (t ++ z).takeWhile Char.isDigit = t.takeWhile Char.isDigit := by
    rw [List.takeWhile_append]
    split_ifs with hlen
    · have h2 := (List.takeWhile_prefix (p := Char.isDigit) (l := t)).eq_of_length hlen
      rw [hz, List.append_nil, h2]
    · rfl
  have hd : (t ++ z).dropWhile Char.isDigit = t.dropWhile Char.isDigit ++ z := by
    rw [List.dropWhile_append]
    split_ifs with hemp
    · rw [List.isEmpty_iff] at hemp
      rw [hemp, List.nil_append, hzd]
    · rfl
  simp only [lineRefMatchHere, ht, hd]
  split_ifs with h1 h2
  · rfl
  · rfl
  · rfl

/-- Splice base case: the scanner rewrites an occurrence sitting at the
head of the line and copies the occurrence-free remainder. -/
theorem fix_all_splice_base (offset : Int) (w : Char) (ds r : List Char)
    (hw : pyIsSpace w = true) (hne : ds ≠ [])
    (hds : (ds ++ r).takeWhile Char.isDigit = ds)
    (hdr : (ds ++ r).dropWhile Char.isDigit = r)
    (hr : lineRefSplit r = none) :
    fix_all_line_refs ('l' :: 'i' :: 'n' :: 'e' :: w :: (ds ++ r)) offset
      = 'l' :: 'i' :: 'n' :: 'e' :: w ::
        ((toString ((digitsToNat ds : Int) - offset)).toList ++ r) := by
  have hocc : lineRefMatchHere ('l' :: 'i' :: 'n' :: 'e' :: w :: (ds ++ r))
      = some (w, ds, r) := by
    rw [lineRefMatchHere.eq_def]
    dsimp only
    rw [hds, hdr, if_pos ⟨rfl, rfl, rfl, rfl, hw⟩, if_neg hne]
  rw [fix_all_of_matchHere_some offset hocc, fix_all_of_none offset hr]

/-- Splice lemma: the left-to-right scanner on `b ++ occurrence ++ rest`
processes `b` as it would standalone, rewrites the occurrence, and copies
the occurrence-free rest. -/
theorem fix_all_splice (offset : Int) (w : Char) (ds r : List Char)
    (hw : pyIsSpace w = true) (hne : ds ≠ [])
    (hds : (ds ++ r).takeWhile Char.isDigit = ds)
    (hdr : (ds ++ r).dropWhile Char.isDigit = r)
    (hr : lineRefSplit r = none) (b : List Char) :
    fix_all_line_refs (b ++ 'l' :: 'i' :: 'n' :: 'e' :: w :: (ds ++ r)) offset
      = fix_all_line_refs b offset
        ++ 'l' :: 'i' :: 'n' :: 'e' :: w ::
          ((toString ((digitsToNat ds : Int) - offset)).toList ++ r) := by
  have key : ∀ n, ∀ b : List Char, b.length ≤ n →
      fix_all_line_refs (b ++ 'l' :: 'i' :: 'n' :: 'e' :: w :: (ds ++ r)) offset
        = fix_all_line_refs b offset
          ++ 'l' :: 'i' :: 'n' :: 'e' :: w ::
            ((toString ((digitsToNat ds : Int) - offset)).toList ++ r) := by
    intro n
    induction n with
    | zero =>
      intro b hb
      obtain rfl : b = [] := List.eq_nil_of_length_eq_zero (Nat.le_zero.mp hb)
      rw [List.nil_append, fix_all_splice_base offset w ds r hw hne hds hdr hr,
        fix_all_nil, List.nil_append]
    | succ n ih =>
      intro b hb
      rcases b with _ | ⟨c, _ | ⟨x1, _ | ⟨x2, _ | ⟨x3, _ | ⟨x4, _ | ⟨x5, b2⟩⟩⟩⟩⟩⟩
      · rw [List.nil_append, fix_all_splice_base offset w ds r hw hne hds hdr hr,
          fix_all_nil, List.nil_append]
      · have hctx : lineRefMatchHere
            (c :: 'l' :: 'i' :: 'n' :: 'e' :: w :: (ds ++ r)) = none := by
          simp only [lineRefMatchHere]
          rw [if_neg (fun h => absurd h.2.1 (by decide))]
        have iha := ih [] (by simp)
        simp only [List.cons_append, List.nil_append] at iha ⊢
        rw [fix_all_cons_of_none offset hctx, iha,
          fix_all_cons_of_none offset (show lineRefMatchHere [c] = none from rfl)]
        rfl
      · have hctx : lineRefMatchHere
            (c :: x1 :: 'l' :: 'i' :: 'n' :: 'e' :: w :: (ds ++ r)) = none := by
          simp only [lineRefMatchHere]
          rw [if_neg (fun h => absurd h.2.2.1 (by decide))]
        have iha := ih [x1] (by simp at hb ⊢; omega)
        simp only [List.cons_append, List.nil_append] at iha ⊢
        rw [fix_all_cons_of_none offset hctx, iha,
          fix_all_cons_of_none offset (show lineRefMatchHere [c, x1] = none from rfl)]
        rfl
      · have hctx : lineRefMatchHere
            (c :: x1 :: x2 :: 'l' :: 'i' :: 'n' :: 'e' :: w :: (ds ++ r)) = none := by
          simp only [lineRefMatchHere]
          rw [if_neg (fun h => absurd h.2.2.2.1 (by decide))]
        have iha := ih [x1, x2] (by simp at hb ⊢; omega)
        simp only [List.cons_append, List.nil_append] at iha ⊢
        rw [fix_all_cons_of_none offset hctx, iha,
          fix_all_cons_of_none offset (show lineRefMatchHere [c, x1, x2] = none from rfl)]
        rfl
      · have hctx : lineRefMatchHere
            (c :: x1 :: x2 :: x3 :: 'l' :: 'i' :: 'n' :: 'e' :: w :: (ds ++ r)) = none := by
          simp only [lineRefMatchHere]
          rw [if_neg (fun h => absurd h.2.2.2.2 (by decide))]
        have iha := ih [x1, x2, x3] (by simp at hb ⊢; omega)
        simp only [List.cons_append, List.nil_append] at iha ⊢
        rw [fix_all_cons_of_none offset hctx, iha,
          fix_all_cons_of_none offset
            (show lineRefMatchHere [c, x1, x2, x3] = none from rfl)]
        rfl
      · have hctx : lineRefMatchHere
            (c :: x1 :: x2 :: x3 :: x4 :: 'l' :: 'i' :: 'n' :: 'e' :: w :: (ds ++ r))
              = none := by
          simp only [lineRefMatchHere]
          rw [List.takeWhile_cons_of_neg (by decide : ¬ Char.isDigit 'l' = true)]
          split_ifs with h1 h2
          · rfl
          · exact absurd rfl h2
          · rfl
        have hstd : lineRefMatchHere [c, x1, x2, x3, x4] = none := by
          simp only [lineRefMatchHere]
          split_ifs with h1 h2
          · rfl
          · exact absurd rfl h2
          · rfl
        have iha := ih [x1, x2, x3, x4] (by simp at hb ⊢; omega)
        simp only [List.cons_append, List.nil_append] at iha ⊢
        rw [fix_all_cons_of_none offset hctx, iha, fix_all_cons_of_none offset hstd]
        rfl
      · have hz : ('l' :: 'i' :: 'n' :: 'e' :: w :: (ds ++ r)).takeWhile Char.isDigit
            = [] := List.takeWhile_cons_of_neg (by decide)
        have hctx := lineRefMatchHere_append_stop c x1 x2 x3 x4 (x5 :: b2)
          ('l' :: 'i' :: 'n' :: 'e' :: w :: (ds ++ r)) hz
        cases hstand : lineRefMatchHere (c :: x1 :: x2 :: x3 :: x4 :: x5 :: b2) with
        | none =>
          rw [hstand] at hctx
          simp only [Option.map_none'] at hctx
          simp only [List.cons_append] at hctx ⊢
          have iha := ih (x1 :: x2 :: x3 :: x4 :: x5 :: b2) (by simp at hb ⊢; omega)
          simp only [List.cons_append] at iha
          rw [fix_all_cons_of_none offset hctx, iha, fix_all_cons_of_none offset hstand]
          rfl
        | some res =>
          obtain ⟨w1, ds1, r1⟩ := res
          rw [hstand] at hctx
          simp only [Option.map_some'] at hctx
          simp only [List.cons_append] at hctx ⊢
          obtain ⟨e1, _, _, e4, _⟩ := lineRefMatchHere_eq_some hstand
          have hlen := congrArg List.length e1
          simp at hlen
          have hds1 : ds1.length ≠ 0 := by simpa using e4
          have iha := ih r1 (by simp at hb ⊢; omega)
          rw [fix_all_of_matchHere_some offset hctx, iha,
            fix_all_of_matchHere_some offset hstand]
          simp [List.append_assoc]
  exact key b.length b le_rfl

/-- Equivalence of the regex-recursion rewriter with the left-to-right
scanner: `fix_line_nr` rewrites exactly every `line N` occurrence. -/
theorem fix_line_nr_eq_fix_all (l : List Char) (offset : Int) :
    fix_line_nr l offset = fix_all_line_refs l offset := by
  have key : ∀ n, ∀ l : List Char, l.length ≤ n →
      fix_line_nr l offset = fix_all_line_refs l offset := by
    intro n
    induction n with
    | zero =>
      intro l hl
      obtain rfl : l = [] := List.eq_nil_of_length_eq_zero (Nat.le_zero.mp hl)
      rw [fix_line_nr_eq_self offset (show lineRefSplit [] = none from rfl), fix_all_nil]
    | succ n ih =>
      intro l hl
      cases hsp : lineRefSplit l with
      | none => rw [fix_line_nr_eq_self offset hsp, fix_all_of_none offset hsp]
      | some res =>
        obtain ⟨b, w, ds, r⟩ := res
        obtain ⟨e1, e2, e3, e4, e5, e6⟩ := lineRefSplit_inv hsp
        have hlen := lineRefSplit_length hsp
        rw [fix_line_nr_eq_rewrite offset hsp, ih b (by omega),
          fix_line_nr_eq_self offset e6, e1,
          fix_all_splice offset w ds r e5 e4 e2.symm e3.symm e6 b]
  exact key l.length l le_rfl

theorem lineRefSplit_eq_none_of_no_ref {l : List Char}
    (h : has_line_ref l = false) : lineRefSplit l = none := by
  induction l with
  | nil => rfl
  | cons c cs ih =>
    rw [has_line_ref, Bool.or_eq_false_iff] at h
    obtain ⟨h1, h2⟩ := h
    rw [lineRefSplit, ih h2]
    cases hmh : lineRefMatchHere (c :: cs) with
    | none => rfl
    | some res =>
      rw [hmh] at h1
      exact absurd h1 (by simp)

/-- Claim C5: on a (newline-free) message, `fix_line_nr` rewrites every
embedded `line N` reference — equal to the specification-side left-to-right
scanner `fix_all_line_refs`, which replaces each number by number minus
offset and copies every other character verbatim — and a message with no
such reference is returned unchanged. -/
theorem C5_message_line_refs (offset : Int) (msg : List Char) (hnl : '\n' ∉ msg) :
    fix_line_nr msg offset = fix_all_line_refs msg offset ∧
    (has_line_ref msg = false → fix_line_nr msg offset = msg) :=
  ⟨fix_line_nr_eq_fix_all msg offset,
   fun h => fix_line_nr_eq_self offset (lineRefSplit_eq_none_of_no_ref h)⟩

/-- Claim C5 witness: a message with two references, and an unchanged
reference-free message. -/
theorem C5_witness :
    fix_line_nr (("defined on line 12, referenced on line 7").toList) 2
      = fix_all_line_refs (("defined on line 12, referenced on line 7").toList) 2 ∧
    fix_line_nr ((": error: bad type").toList) 2 = (": error: bad type").toList :=
  ⟨(C5_message_line_refs 2 (("defined on line 12, referenced on line 7").toList)
      (by decide)).1,
   (C5_message_line_refs 2 ((": error: bad type").toList) (by decide)).2 (by decide)⟩
